import Mathlib

/-!
Verification of the thread-publishing core of `bluesky_auto`.

The Python sources are shallowly embedded: strings are `List Char`
(Python `str` is a sequence of code points), dictionaries with a fixed
key layout become structures with `Option` fields for conditionally
present keys, network responses are supplied by explicit oracles
(`Nat → Option _`), and every network request issued by a run is
recorded in an event trace so that claims about "no call is made" or
"call i carries argument x" can be stated.

Sources embedded:
  * `bluesky_publisher.py`   — `create_post`, `post_thread`, `upload_image`
  * `bluesky_thread_generator.py` — `_parse_thread`, `generate_thread`
-/

/-! ## Python string primitives (ASCII model)

Python `str.lower`, `str.strip`, `str.replace`, `str.split`,
`str.startswith` and the `in` operator, modelled over `List Char`.
Unicode-specific behaviour (non-ASCII case folding, non-ASCII
whitespace) is out of scope: all constants in the embedded code are
ASCII. -/

/-- ASCII model of Python `str.lower`, applied characterwise. -/
def pyLower (c : Char) : Char := c.toLower

/-- ASCII whitespace recognized by Python `str.strip()` and regex class
backslash-s: space, tab, newline, carriage return, vertical tab, form feed. -/
def pySpace (c : Char) : Bool :=
  c = ' ' || c = '\t' || c = '\n' || c = '\r' || c = '\x0b' || c = '\x0c'

/-- Python `s.strip()`: remove leading and trailing whitespace. -/
def stripChars (s : List Char) : List Char :=
  ((s.dropWhile pySpace).reverse.dropWhile pySpace).reverse

/-- Worker for Python `s.replace(pat, rep)`: replace the leftmost
occurrence of `pat`, continue scanning after the replacement
(non-overlapping, left to right).  The `¬pat = []` guard restricts the
model to non-empty patterns; the embedded code only uses
`pat = "+00:00"`. -/
def replaceGo (pat rep : List Char) : Nat → List Char → List Char
  | 0, s => s
  | _ + 1, [] => []
  | fuel + 1, c :: rest =>
    if pat.isPrefixOf (c :: rest) ∧ ¬pat = [] then
      rep ++ replaceGo pat rep fuel ((c :: rest).drop pat.length)
    else
      c :: replaceGo pat rep fuel rest

/-- Python `s.replace(pat, rep)` for a non-empty `pat`, via fuel: each
replacement or copy consumes at least one character, so `s.length + 1`
fuel always runs to completion. -/
def replaceList (pat rep s : List Char) : List Char :=
  replaceGo pat rep (s.length + 1) s

/-- First occurrence split: `splitFirst sep s = some (pre, post)` when
`s = pre ++ sep ++ post` with `pre` not containing `sep` before that
point; `none` when `sep` does not occur in `s`.  (Only used with
non-empty separators.) -/
def splitFirst (sep : List Char) : List Char → Option (List Char × List Char)
  | [] => none
  | c :: rest =>
    if sep.isPrefixOf (c :: rest) then
      some ([], (c :: rest).drop sep.length)
    else
      match splitFirst sep rest with
      | some (pre, post) => some (c :: pre, post)
      | none => none

/-- Fuel-driven worker for `pySplit`; each step removes at least one
character for a non-empty separator, so `s.length + 1` fuel is always
enough. -/
def pySplitGo (sep : List Char) : Nat → List Char → List (List Char)
  | 0, s => [s]
  | fuel + 1, s =>
    match splitFirst sep s with
    | none => [s]
    | some (pre, post) => pre :: pySplitGo sep fuel post

/-- Python `s.split(sep)` for a non-empty separator: split at every
non-overlapping occurrence, keeping empty chunks. -/
def pySplit (sep s : List Char) : List (List Char) :=
  pySplitGo sep (s.length + 1) s

/-! ## Data model of `bluesky_publisher.py` -/

/-- Result dict `{'uri': ..., 'cid': ...}` returned by `create_post`
(`bluesky_publisher.py`, lines 118-121): the reference to a created
record. -/
structure RecordRef where
  uri : String
  cid : String
deriving DecidableEq, Inhabited

/-- Reply reference dict `{'root': {...}, 'parent': {...}}` built in
`post_thread` (lines 169-178). -/
structure ReplyRef where
  root : RecordRef
  parent : RecordRef
deriving DecidableEq, Inhabited

/-- Opaque blob descriptor returned by the upload endpoint
(`data['blob']`, line 240); its content never matters to the claims. -/
structure Blob where
  payload : String
deriving DecidableEq, Inhabited

/-- Arguments of one `create_post` call as issued by `post_thread`
(line 162): the text, the `reply_to` reference and the `image_blob`. -/
structure Call where
  text : String
  reply_to : Option ReplyRef
  image_blob : Option Blob
deriving DecidableEq, Inhabited

/-- One network request issued during a thread publication: a blob
upload (with the Content-Type it sends) or a record creation. -/
inductive NetEvent where
  | uploadBlob (mimetype : List Char)
  | createRecord (c : Call)
deriving DecidableEq

/-- The record-creation calls of an event trace, in order. -/
def callsOf (events : List NetEvent) : List Call :=
  events.filterMap fun e =>
    match e with
    | NetEvent.createRecord c => some c
    | NetEvent.uploadBlob _ => none

/-! ## Timestamp construction (`create_post`, line 86)

The source computes
`datetime.now(timezone.utc).isoformat().replace('+00:00', 'Z')`.
We model the wall-clock value as an explicit record of components; the
claims quantify over it. -/

/-- Components of an aware `datetime` in UTC; `isoformat` of such a
value is `YYYY-MM-DDTHH:MM:SS[.ffffff]+00:00`. -/
structure PyDateTime where
  year : Nat
  month : Nat
  day : Nat
  hour : Nat
  minute : Nat
  second : Nat
  microsecond : Nat
deriving DecidableEq, Inhabited

/-- Decimal digit character for `d < 10` (last branch is unreachable on
digits). -/
def digitChar (d : Nat) : Char :=
  if d = 0 then '0' else if d = 1 then '1' else if d = 2 then '2'
  else if d = 3 then '3' else if d = 4 then '4' else if d = 5 then '5'
  else if d = 6 then '6' else if d = 7 then '7' else if d = 8 then '8'
  else '9'

/-- Fuel-driven most-significant-first decimal rendering. -/
def natDigitsGo : Nat → Nat → List Char → List Char
  | 0, _, acc => acc
  | fuel + 1, n, acc =>
    if n < 10 then digitChar n :: acc
    else natDigitsGo fuel (n / 10) (digitChar (n % 10) :: acc)

/-- Decimal rendering of a natural number, as Python `str`/`%d`. -/
def natDigits (n : Nat) : List Char :=
  natDigitsGo (n + 1) n []

/-- Zero-padded decimal rendering to width `w` (Python `%0wd` for
values that fit the width). -/
def padNum (w n : Nat) : List Char :=
  List.replicate (w - (natDigits n).length) '0' ++ natDigits n

/-- Everything `datetime.isoformat()` produces before the UTC offset:
date, `T`, time, and the `.ffffff` part exactly when the microsecond
field is non-zero. -/
def isoPre (dt : PyDateTime) : List Char :=
  padNum 4 dt.year ++ ['-'] ++ padNum 2 dt.month ++ ['-'] ++ padNum 2 dt.day ++
    ['T'] ++ padNum 2 dt.hour ++ [':'] ++ padNum 2 dt.minute ++ [':'] ++
    padNum 2 dt.second ++
    (if dt.microsecond = 0 then [] else '.' :: padNum 6 dt.microsecond)

/-- Python `datetime.isoformat()` of an aware UTC datetime: the offset
suffix is always `+00:00`. -/
def pyIsoformatUTC (dt : PyDateTime) : List Char :=
  isoPre dt ++ "+00:00".data

/-- The `createdAt` value built on line 86:
`isoformat().replace('+00:00', 'Z')`. -/
def createdAtStr (dt : PyDateTime) : List Char :=
  replaceList "+00:00".data "Z".data (pyIsoformatUTC dt)

/-! ## `create_post` record construction (lines 83-107) -/

/-- One entry of the `images` list of an image embed: always
`{'alt': '', 'image': blob}` (lines 97-100). -/
structure ImageItem where
  alt : String
  image : Blob
deriving DecidableEq, Inhabited

/-- The `embed` dict added when an image blob is present (lines
94-101). -/
structure EmbedImages where
  etype : String
  images : List ImageItem
deriving DecidableEq, Inhabited

/-- The post record dict built by `create_post` (lines 83-101).
`reply` and `embed` are `Option`s because the corresponding keys are
added only conditionally. -/
structure PostRecord where
  rtype : String
  text : String
  createdAt : List Char
  reply : Option ReplyRef
  embed : Option EmbedImages
deriving DecidableEq, Inhabited

/-- The record `create_post` builds from its arguments and the current
time (lines 83-101): type tag and text, `createdAt` from the clock,
`reply` attached verbatim when present, a single-image embed with
empty alt text when a blob is present. -/
def buildRecord (text : String) (dt : PyDateTime) (reply_to : Option ReplyRef)
    (image_blob : Option Blob) : PostRecord :=
  { rtype := "app.bsky.feed.post"
    text := text
    createdAt := createdAtStr dt
    reply := reply_to
    embed := image_blob.map fun b =>
      { etype := "app.bsky.embed.images", images := [{ alt := "", image := b }] } }

/-! ## MIME detection (`upload_image`, lines 217-225) -/

/-- Final path component (posixpath: everything after the last
slash). -/
def pyBasename (p : List Char) : List Char :=
  (p.reverse.takeWhile (fun c => c ≠ '/')).reverse

/-- Extension of one path component: starts at the last dot, except
that dots leading the component do not start an extension (the
`filenameIndex` scan of CPython's `splitext`).  `revAfter` is the
run of non-dot characters ending the component, reversed. -/
def extFromBase (base : List Char) : List Char :=
  if (base.reverse.takeWhile (fun c => c ≠ '.')).length = base.length then []
  else if (base.take
      (base.length - (base.reverse.takeWhile (fun c => c ≠ '.')).length - 1)).all
      (fun c => c = '.') then []
  else '.' :: (base.reverse.takeWhile (fun c => c ≠ '.')).reverse

/-- Extension part of `os.path.splitext` (posixpath): the suffix of the
final path component starting at its last dot, except that dots
leading the component do not start an extension.  Result is `[]` or
starts with a dot. -/
def splitextExt (p : List Char) : List Char :=
  extFromBase (pyBasename p)

/-- The Content-Type chosen by `upload_image` (lines 217-225):
`os.path.splitext(image_path)[1].lower()` looked up in the fixed dict,
defaulting to `image/jpeg`. -/
def mimetype_of (image_path : List Char) : List Char :=
  let ext := (splitextExt image_path).map pyLower
  if ext = ".jpg".data then "image/jpeg".data
  else if ext = ".jpeg".data then "image/jpeg".data
  else if ext = ".png".data then "image/png".data
  else if ext = ".gif".data then "image/gif".data
  else if ext = ".webp".data then "image/webp".data
  else "image/jpeg".data

/-! ## `upload_image` and `post_thread` (lines 130-246)

Network nondeterminism is made explicit:
  * `fileExists` — result of the `os.path.exists` check (line 209);
  * `readOk` — whether opening/reading the file succeeds (line 227; on
    failure the `except` returns `None` before any request is sent);
  * `uploadResp` — blob returned by the upload endpoint, `none` for a
    non-200 status or a transport exception (lines 237-246);
  * `oracle i` — reference returned by the `i`-th `create_post` call
    (`i` is 1-based, matching `enumerate(posts, 1)`), `none` for a
    non-200 status or an exception (lines 109-128).
Each embedded operation also returns the trace of network requests it
issued. -/

/-- Embedding of `upload_image` (lines 197-246): no request when the
file is missing or unreadable; otherwise one `uploadBlob` request with
the detected Content-Type, whose outcome is `uploadResp`. -/
def upload_image (image_path : String) (fileExists readOk : Bool)
    (uploadResp : Option Blob) : Option Blob × List NetEvent :=
  if fileExists = false then (none, [])
  else if readOk = false then (none, [])
  else (uploadResp, [NetEvent.uploadBlob (mimetype_of image_path.data)])

/-- The optional-upload step of `post_thread` (lines 150-153): Python
`if image_path:` is false both for `None` and for the empty string. -/
def upload_step (image_path : Option String) (fileExists readOk : Bool)
    (uploadResp : Option Blob) : Option Blob × List NetEvent :=
  match image_path with
  | none => (none, [])
  | some p => if p = "" then (none, []) else upload_image p fileExists readOk uploadResp

/-- The posting loop of `post_thread` (lines 155-185).  `idx` is the
1-based `enumerate` counter; `image_blob`, `reply_ref` and `posted`
are the loop state.  Returns the final `posted` list and the list of
`create_post` calls issued.  The image goes only to `idx == 1`
(line 160); on success the next reply reference is built from
`posted[0]` and the fresh result (lines 169-178); on failure the loop
breaks (line 185).  The `time.sleep(2)` throttle and the prints are
semantically void and omitted. -/
def thread_loop (oracle : Nat → Option RecordRef) :
    List String → Nat → Option Blob → Option ReplyRef → List RecordRef →
    List RecordRef × List Call
  | [], _, _, _, posted => (posted, [])
  | text :: rest, idx, image_blob, reply_ref, posted =>
    let img := if idx = 1 then image_blob else none
    let call : Call := { text := text, reply_to := reply_ref, image_blob := img }
    match oracle idx with
    | some result =>
      let posted2 := posted ++ [result]
      let reply2 : ReplyRef :=
        { root := { uri := posted2.headI.uri, cid := posted2.headI.cid }
          parent := { uri := result.uri, cid := result.cid } }
      let rec2 := thread_loop oracle rest (idx + 1) image_blob (some reply2) posted2
      (rec2.1, call :: rec2.2)
    | none => (posted, [call])

/-- Embedding of `post_thread` (lines 130-195).  Empty input returns
`None` immediately (lines 141-143), before the upload and before any
request.  Otherwise: optional upload, the posting loop, and the final
result selection (lines 187-195): the full `posted` list on full
success, `posted` on partial success, `None` when nothing was
posted. -/
def post_thread (oracle : Nat → Option RecordRef) (texts : List String)
    (image_path : Option String) (fileExists readOk : Bool)
    (uploadResp : Option Blob) : Option (List RecordRef) × List NetEvent :=
  if texts = [] then (none, [])
  else
    let up := upload_step image_path fileExists readOk uploadResp
    let lr := thread_loop oracle texts 1 up.1 none []
    (if lr.1.length = texts.length then some lr.1
     else if lr.1 = [] then none else some lr.1,
     up.2 ++ lr.2.map NetEvent.createRecord)

/-! ## Derived quantities used to state the claims -/

/-- The reference the oracle returns for call `i`, defaulting when the
call failed; only ever read at indices where the call succeeded. -/
def vals (oracle : Nat → Option RecordRef) (i : Nat) : RecordRef :=
  (oracle i).getD default

/-- Length of the run of consecutive successful calls starting at call
`idx`, looking at most `m` calls ahead. -/
def okRun (oracle : Nat → Option RecordRef) : Nat → Nat → Nat
  | _, 0 => 0
  | idx, m + 1 =>
    match oracle idx with
    | some _ => okRun oracle (idx + 1) m + 1
    | none => 0

/-- The thread root as seen from loop state `(posted, idx)`: the head
of `posted` once non-empty, otherwise the result of the next call. -/
def rootOf (oracle : Nat → Option RecordRef) (posted : List RecordRef)
    (idx : Nat) : RecordRef :=
  match posted with
  | [] => vals oracle idx
  | r :: _ => r

/-! ## `_parse_thread` (`bluesky_thread_generator.py`, lines 199-229) -/

/-- The apostrophe character, used in one of the AI prefixes. -/
def apos : Char := Char.ofNat 39

/-- The prefixes stripped on lines 202-205, in source order. -/
def aiPre1 : List Char := "Here".data ++ [apos] ++ "s the thread:".data

/-- Second stripped AI prefix. -/
def aiPre2 : List Char := "Here are the posts:".data

/-- Third stripped AI prefix. -/
def aiPre3 : List Char := "Thread:".data

/-- One iteration of the prefix-removal loop (lines 203-205):
`if content.lower().startswith(pre.lower()): content =
content[len(pre):].strip()`. -/
def stripOnePre (pre content : List Char) : List Char :=
  if (pre.map pyLower).isPrefixOf (content.map pyLower) then
    stripChars (content.drop pre.length)
  else content

/-- The full prefix-removal loop over the three prefixes, in order. -/
def stripAiPres (content : List Char) : List Char :=
  stripOnePre aiPre3 (stripOnePre aiPre2 (stripOnePre aiPre1 content))

/-- Attempt to match the regex `\n\s*\d+/\d+\s*\n` at the head of `s`
(Python `re` backtracking semantics, ASCII classes).  Digits are never
whitespace, so the two inner `\s*`/`\d+` runs are the maximal ones;
the final `\s*\n` consumes the surrounding whitespace run up to and
including its last newline.  Returns the remainder after the match. -/
def matchSepAt (s : List Char) : Option (List Char) :=
  match s with
  | [] => none
  | c :: rest =>
    if c = '\n' then
      let r1 := rest.dropWhile pySpace
      let digs1 := r1.takeWhile Char.isDigit
      let r2 := r1.dropWhile Char.isDigit
      if digs1 = [] then none
      else
        match r2 with
        | '/' :: r3 =>
          let digs2 := r3.takeWhile Char.isDigit
          let r4 := r3.dropWhile Char.isDigit
          if digs2 = [] then none
          else
            let run := r4.takeWhile pySpace
            let after := r4.dropWhile pySpace
            if '\n' ∈ run then
              some ((run.reverse.takeWhile (fun c => c ≠ '\n')).reverse ++ after)
            else none
        | _ => none
    else none

/-- Fuel-driven scanner for `re.split` with the pattern above: scan
left to right, cut at every match.  `acc` holds the current chunk in
reverse.  Every match consumes at least one character, so
`s.length + 1` fuel is always enough. -/
def reSplitGo : Nat → List Char → List Char → List (List Char)
  | 0, acc, s => [acc.reverse ++ s]
  | fuel + 1, acc, s =>
    match s with
    | [] => [acc.reverse]
    | c :: rest =>
      match matchSepAt (c :: rest) with
      | some remainder => acc.reverse :: reSplitGo fuel [] remainder
      | none => reSplitGo fuel (c :: acc) rest

/-- Python `re.split(r'\n\s*\d+/\d+\s*\n', content)`. -/
def reSplit (content : List Char) : List (List Char) :=
  reSplitGo (content.length + 1) [] content

/-- Python's `pat in s` substring test. -/
def containsSub (pat : List Char) : List Char → Bool
  | [] => pat.isEmpty
  | c :: rest => pat.isPrefixOf (c :: rest) || containsSub pat rest

/-- The chunking step of `_parse_thread` (lines 208-216): split on
`---` when present, else on a triple newline when present, else on the
post-number regex followed by a strip-and-drop-empty comprehension. -/
def rawChunks (content : List Char) : List (List Char) :=
  if containsSub "---".data content then pySplit "---".data content
  else if containsSub "\n\n\n".data content then pySplit "\n\n\n".data content
  else ((reSplit content).map stripChars).filter (fun p => ¬p = [])

/-- The per-post cleaning step (lines 220-227): strip, remove one pair
of surrounding double quotes, keep only non-empty posts of at most 300
characters.  Note Python's `startswith`/`endswith` both hold for the
one-character string `"`, whose `[1:-1]` slice is empty. -/
def cleanQuoted (post : List Char) : List Char :=
  let p1 := stripChars post
  if p1.head? = some '"' ∧ p1.getLast? = some '"' then (p1.drop 1).dropLast
  else p1

/-- The length/emptiness guard ending the loop body (line 226): keep
only non-empty posts of at most 300 characters. -/
def cleanPost (post : List Char) : Option (List Char) :=
  if ¬cleanQuoted post = [] ∧ (cleanQuoted post).length ≤ 300 then
    some (cleanQuoted post)
  else none

/-- Embedding of `_parse_thread` (lines 199-229). -/
def parseThread (content : List Char) : List (List Char) :=
  (rawChunks (stripAiPres content)).filterMap cleanPost

/-! ## `generate_thread` (lines 159-197)

The provider APIs are abstracted by `responses : Nat → Option (List
Char)`: the text returned by the provider call made on attempt `a`
(`none` for a non-200 status or an exception).  A provider name other
than `groq`/`gemini` yields `None` without a call (lines 179-184). -/

/-- The `while attempts < retry_count and attempts < len(provider_list)`
loop (lines 175-194), driven by `remaining = retry_count - attempts`
so that the recursion is structural.  Returns the result and the final
`current_index`.  An empty parse or one with fewer than 3 posts is a
failure for this attempt (line 188); on failure the provider index
rotates (line 192). -/
def genLoop (provider_list : List String) (responses : Nat → Option (List Char)) :
    Nat → Nat → Nat → Option (List (List Char)) × Nat
  | 0, curIdx, _ => (none, curIdx)
  | remaining + 1, curIdx, attempts =>
    if attempts < provider_list.length then
      let provider := provider_list.getD curIdx ""
      let content :=
        if provider = "groq" ∨ provider = "gemini" then responses attempts
        else none
      match content with
      | some c =>
        if ¬c = [] then
          let posts := parseThread c
          if ¬posts = [] ∧ 3 ≤ posts.length then (some posts, curIdx)
          else
            genLoop provider_list responses remaining
              ((curIdx + 1) % provider_list.length) (attempts + 1)
        else
          genLoop provider_list responses remaining
            ((curIdx + 1) % provider_list.length) (attempts + 1)
      | none =>
        genLoop provider_list responses remaining
          ((curIdx + 1) % provider_list.length) (attempts + 1)
    else (none, curIdx)

/-- Embedding of `generate_thread` (lines 159-197): run the loop from
`attempts = 0` with the current provider rotation index. -/
def generate_thread (provider_list : List String)
    (responses : Nat → Option (List Char)) (retry_count : Nat)
    (current_index : Nat) : Option (List (List Char)) × Nat :=
  genLoop provider_list responses retry_count current_index 0

/-! ## Spec-side definition for claim C7

`claimMime` is written from the words of the claim, not from the
source: the fixed table over bare lowered extensions
`{jpg, jpeg, png, gif, webp}` with default `image/jpeg`.  C7 is the
statement that `mimetype_of` refines it. -/

/-- The extension of the claim's table: the `splitext` extension with
its leading dot removed. -/
def extNoDot (p : List Char) : List Char :=
  match splitextExt p with
  | c :: rest => if c = '.' then rest else c :: rest
  | [] => []

/-- The claim's extension-to-MIME table with its default. -/
def claimMime (ext : List Char) : List Char :=
  if ext = "jpg".data then "image/jpeg".data
  else if ext = "jpeg".data then "image/jpeg".data
  else if ext = "png".data then "image/png".data
  else if ext = "gif".data then "image/gif".data
  else if ext = "webp".data then "image/webp".data
  else "image/jpeg".data

/-! ## Concrete fixtures for witnesses -/

/-- A concrete record reference. -/
def refA : RecordRef := { uri := "at://did/app.bsky.feed.post/a1", cid := "cidA" }

/-- An oracle on which every `create_post` call succeeds with `refA`. -/
def oracleAll : Nat → Option RecordRef := fun _ => some refA

/-- An oracle on which only the first call succeeds. -/
def oracleOne : Nat → Option RecordRef := fun i => if i = 1 then some refA else none

/-- An oracle on which every call fails. -/
def oracleNone : Nat → Option RecordRef := fun _ => none

/-! ## Theorems -/

/-- Every post that survives the cleaning step of `_parse_thread` is
non-empty and at most 300 characters. -/
theorem cleanPost_bounds {a p : List Char} (h : cleanPost a = some p) :
    ¬p = [] ∧ p.length ≤ 300 := by
  unfold cleanPost at h
  split at h
  · rename_i hc
    cases h
    exact hc
  · simp at h

/-- C9 (implicit — parse output bounds): every string in the list
returned by `_parse_thread` is non-empty and at most 300 characters
long, for every input content string. -/
theorem parse_thread_bounds (content p : List Char) (hp : p ∈ parseThread content) :
    ¬p = [] ∧ p.length ≤ 300 := by
  unfold parseThread at hp
  rw [List.mem_filterMap] at hp
  obtain ⟨a, -, ha⟩ := hp
  exact cleanPost_bounds ha

/-- Witness for C9 on a concrete parse. -/
theorem parse_thread_bounds_witness :
    ¬("ab".data = ([] : List Char)) ∧ "ab".data.length ≤ 300 :=
  parse_thread_bounds "ab---cd".data "ab".data (by decide)

/-- The generation loop only returns a parse that passed the
`len(posts) >= 3` check. -/
theorem genLoop_min (pl : List String) (resp : Nat → Option (List Char)) :
    ∀ rem ci att posts, (genLoop pl resp rem ci att).1 = some posts →
      3 ≤ posts.length := by
  intro rem
  induction rem with
  | zero =>
    intro ci att posts h
    simp [genLoop] at h
  | succ n ih =>
    intro ci att posts h
    simp only [genLoop] at h
    split at h
    · split at h
      · rename_i c hc
        split at h
        · split at h
          · rename_i hpost
            simp only at h
            cases h
            exact hpost.2
          · exact ih _ _ _ h
        · exact ih _ _ _ h
      · exact ih _ _ _ h
    · simp at h

/-- C10 (implicit — minimum thread size): `generate_thread` never
returns a list of fewer than 3 posts; its result is either `None` or a
list of at least 3 strings. -/
theorem generate_thread_min (pl : List String) (resp : Nat → Option (List Char))
    (retry ci : Nat) (posts : List (List Char))
    (h : (generate_thread pl resp retry ci).1 = some posts) :
    3 ≤ posts.length :=
  genLoop_min pl resp retry ci 0 posts h

/-- Witness for C10 on a concrete successful generation. -/
theorem generate_thread_min_witness :
    3 ≤ [("a".data : List Char), "b".data, "c".data].length :=
  generate_thread_min ["groq"] (fun _ => some "a---b---c".data) 2 0
    ["a".data, "b".data, "c".data] (by decide)

/-- The successes of the posting loop: starting from `posted`, it
appends exactly the results of the run of consecutive successful calls
beginning at `idx`. -/
theorem thread_loop_posted (oracle : Nat → Option RecordRef) :
    ∀ (texts : List String) (idx : Nat) (blob : Option Blob)
      (reply : Option ReplyRef) (posted : List RecordRef),
    (thread_loop oracle texts idx blob reply posted).1 =
      posted ++ (List.range' idx (okRun oracle idx texts.length)).map (vals oracle) := by
  intro texts
  induction texts with
  | nil => intro idx blob reply posted; simp [thread_loop, okRun]
  | cons t rest ih =>
    intro idx blob reply posted
    cases h : oracle idx with
    | none => simp [thread_loop, okRun, h]
    | some r =>
      simp only [thread_loop, okRun, List.length_cons, h]
      rw [ih]
      rw [List.range'_succ]
      simp [vals, h, List.append_assoc]

/-- The number of `create_post` calls the loop issues: one per success
plus one for the failing call, capped by the number of texts. -/
theorem thread_loop_calls_length (oracle : Nat → Option RecordRef) :
    ∀ (texts : List String) (idx : Nat) (blob : Option Blob)
      (reply : Option ReplyRef) (posted : List RecordRef),
    (thread_loop oracle texts idx blob reply posted).2.length =
      min (okRun oracle idx texts.length + 1) texts.length := by
  intro texts
  induction texts with
  | nil => intro idx blob reply posted; simp [thread_loop, okRun]
  | cons t rest ih =>
    intro idx blob reply posted
    cases h : oracle idx with
    | none =>
      simp [thread_loop, okRun, h]
    | some r =>
      simp only [thread_loop, okRun, List.length_cons, h, List.length_cons]
      rw [ih]
      omega

/-- Per-call characterization of the posting loop: the `j`-th call it
issues carries the `j`-th remaining text, the image blob exactly on
loop index 1, and as reply reference the incoming one for the first
call and the chain reference (thread root, previous result) for every
later call. -/
theorem thread_loop_call_spec (oracle : Nat → Option RecordRef) :
    ∀ (texts : List String) (idx : Nat) (blob : Option Blob)
      (reply : Option ReplyRef) (posted : List RecordRef) (j : Nat) (c : Call),
    (thread_loop oracle texts idx blob reply posted).2[j]? = some c →
      c.text = texts.getD j "" ∧
      c.image_blob = (if idx + j = 1 then blob else none) ∧
      c.reply_to =
        (match j with
         | 0 => reply
         | n + 1 => some { root := rootOf oracle posted idx
                           parent := vals oracle (idx + n) }) := by
  intro texts
  induction texts with
  | nil =>
    intro idx blob reply posted j c hc
    simp [thread_loop] at hc
  | cons t rest ih =>
    intro idx blob reply posted j c hc
    cases h : oracle idx with
    | none =>
      simp only [thread_loop, h] at hc
      cases j with
      | zero =>
        simp at hc
        subst hc
        refine ⟨rfl, ?_, rfl⟩
        simp
      | succ n => simp at hc
    | some r =>
      simp only [thread_loop, h] at hc
      cases j with
      | zero =>
        simp at hc
        subst hc
        refine ⟨rfl, ?_, rfl⟩
        simp
      | succ n =>
        simp only [List.getElem?_cons_succ] at hc
        have := ih (idx + 1) blob
          (some { root := { uri := (posted ++ [r]).headI.uri
                            cid := (posted ++ [r]).headI.cid }
                  parent := { uri := r.uri, cid := r.cid } })
          (posted ++ [r]) n c hc
        obtain ⟨h1, h2, h3⟩ := this
        refine ⟨h1, ?_, ?_⟩
        · rw [h2]
          have : idx + 1 + n = idx + (n + 1) := by omega
          rw [this]
        · rw [h3]
          have hroot : (posted ++ [r]).headI = rootOf oracle posted idx := by
            cases posted with
            | nil => simp [rootOf, vals, h]
            | cons p ps => simp [rootOf]
          cases n with
          | zero =>
            simp only []
            have hval : vals oracle (idx + 0) = r := by simp [vals, h]
            rw [hval, hroot]
          | succ m =>
            simp only []
            have hroot2 : rootOf oracle (posted ++ [r]) (idx + 1) =
                rootOf oracle posted idx := by
              cases posted with
              | nil => simp [rootOf, vals, h]
              | cons p ps => simp [rootOf]
            rw [hroot2]
            have : idx + 1 + m = idx + (m + 1) := by omega
            rw [this]

/-- A success run never exceeds the number of remaining texts. -/
theorem okRun_le (oracle : Nat → Option RecordRef) :
    ∀ (m idx : Nat), okRun oracle idx m ≤ m := by
  intro m
  induction m with
  | zero => intro idx; simp [okRun]
  | succ n ih =>
    intro idx
    cases h : oracle idx with
    | none => simp [okRun, h]
    | some r =>
      simp only [okRun, h]
      exact Nat.succ_le_succ (ih (idx + 1))

/-- When the first failure is at offset `k`, the success run has length
exactly `k`. -/
theorem okRun_eq (oracle : Nat → Option RecordRef) :
    ∀ (k m idx : Nat), k < m → oracle (idx + k) = none →
      (∀ j, j < k → (oracle (idx + j)).isSome = true) →
      okRun oracle idx m = k := by
  intro k
  induction k with
  | zero =>
    intro m idx hm hfail _
    cases m with
    | zero => omega
    | succ n => simp only [okRun]; simp at hfail; rw [hfail]
  | succ k ih =>
    intro m idx hm hfail hsucc
    cases m with
    | zero => omega
    | succ n =>
      have h0 : (oracle (idx + 0)).isSome = true := hsucc 0 (by omega)
      simp only [Nat.add_zero] at h0
      obtain ⟨r, hr⟩ := Option.isSome_iff_exists.mp h0
      simp only [okRun, hr]
      have := ih n (idx + 1) (by omega)
        (by have : idx + 1 + k = idx + (k + 1) := by omega
            rw [this]; exact hfail)
        (by intro j hj
            have : idx + 1 + j = idx + (j + 1) := by omega
            rw [this]; exact hsucc (j + 1) (by omega))
      omega

/-- When every call in range succeeds, the success run is full. -/
theorem okRun_full (oracle : Nat → Option RecordRef) :
    ∀ (m idx : Nat), (∀ j, j < m → (oracle (idx + j)).isSome = true) →
      okRun oracle idx m = m := by
  intro m
  induction m with
  | zero => intro idx _; simp [okRun]
  | succ n ih =>
    intro idx hsucc
    have h0 : (oracle (idx + 0)).isSome = true := hsucc 0 (by omega)
    simp only [Nat.add_zero] at h0
    obtain ⟨r, hr⟩ := Option.isSome_iff_exists.mp h0
    simp only [okRun, hr]
    have := ih (idx + 1)
      (by intro j hj
          have : idx + 1 + j = idx + (j + 1) := by omega
          rw [this]; exact hsucc (j + 1) (by omega))
    omega

/-- The upload step never issues a record-creation request. -/
theorem upload_step_no_calls (image_path : Option String) (fe ro : Bool)
    (uo : Option Blob) : callsOf (upload_step image_path fe ro uo).2 = [] := by
  cases image_path with
  | none => simp [upload_step, callsOf]
  | some p =>
    simp only [upload_step, upload_image]
    split
    · simp [callsOf]
    · split
      · simp [callsOf]
      · split
        · simp [callsOf]
        · simp [callsOf]

/-- `callsOf` distributes over trace concatenation. -/
theorem callsOf_append (a b : List NetEvent) :
    callsOf (a ++ b) = callsOf a ++ callsOf b := by
  simp [callsOf, List.filterMap_append]

/-- A trace made only of record creations projects to its calls. -/
theorem callsOf_map_create (l : List Call) :
    callsOf (l.map NetEvent.createRecord) = l := by
  induction l with
  | nil => simp [callsOf]
  | cons c rest ih => simp only [callsOf, List.map_cons, List.filterMap_cons] at *; simp [ih]

/-- The record-creation calls of a non-empty publication are exactly
the calls of the posting loop. -/
theorem post_thread_calls (oracle : Nat → Option RecordRef) (texts : List String)
    (ip : Option String) (fe ro : Bool) (uo : Option Blob) (h : ¬texts = []) :
    callsOf (post_thread oracle texts ip fe ro uo).2 =
      (thread_loop oracle texts 1 (upload_step ip fe ro uo).1 none []).2 := by
  unfold post_thread
  rw [if_neg h]
  rw [callsOf_append, upload_step_no_calls, callsOf_map_create, List.nil_append]

/-- The result of a non-empty publication, in terms of the success
run: `None` when nothing was posted, otherwise the successful
references in order. -/
theorem post_thread_result (oracle : Nat → Option RecordRef) (texts : List String)
    (ip : Option String) (fe ro : Bool) (uo : Option Blob) (h : ¬texts = []) :
    (post_thread oracle texts ip fe ro uo).1 =
      (if okRun oracle 1 texts.length = 0 then none
       else some ((List.range' 1 (okRun oracle 1 texts.length)).map (vals oracle))) := by
  unfold post_thread
  rw [if_neg h]
  simp only [thread_loop_posted, List.nil_append]
  have hlen : ((List.range' 1 (okRun oracle 1 texts.length)).map (vals oracle)).length =
      okRun oracle 1 texts.length := by simp
  have htpos : 0 < texts.length := List.length_pos.mpr h
  split
  · rename_i hfull
    rw [hlen] at hfull
    rw [if_neg (by omega)]
  · split
    · rename_i hnil
      have : okRun oracle 1 texts.length = 0 := by
        have := congrArg List.length hnil
        simpa using this
      rw [if_pos this]
    · rename_i hnil
      have : ¬okRun oracle 1 texts.length = 0 := by
        intro h0
        exact hnil (by simp [h0])
      rw [if_neg this]

/-- Successful entries of a publication indexed through the success
run: entry `j` is the value of call `j + 1`. -/
theorem posted_getD (oracle : Nat → Option RecordRef) (k j : Nat) (hj : j < k) :
    ((List.range' 1 k).map (vals oracle)).getD j default = vals oracle (1 + j) := by
  rw [List.getD_eq_getElem?_getD, List.getElem?_map,
    List.getElem?_range' 1 1 hj]
  simp

/-- C1 (reply chain invariant): in every publication whose result lists
`n ≥ 2` successfully created posts, the `i`-th `create_post` call
(0-based, one per successful post) carries no reply reference for
`i = 0`, and for `1 ≤ i < n` carries exactly
`{root: posted[0], parent: posted[i-1]}`. -/
theorem post_thread_reply_chain (oracle : Nat → Option RecordRef)
    (texts : List String) (ip : Option String) (fe ro : Bool) (uo : Option Blob)
    (posted : List RecordRef)
    (hres : (post_thread oracle texts ip fe ro uo).1 = some posted)
    (hn : 2 ≤ posted.length) :
    ∀ i, i < posted.length →
      ∃ c, (callsOf (post_thread oracle texts ip fe ro uo).2)[i]? = some c ∧
        c.reply_to = (if i = 0 then none
          else some { root := posted.getD 0 default
                      parent := posted.getD (i - 1) default }) := by
  have ht : ¬texts = [] := by
    intro he
    subst he
    simp [post_thread] at hres
  rw [post_thread_result oracle texts ip fe ro uo ht] at hres
  split at hres
  · exact absurd hres (by simp)
  · rename_i hk0
    simp only [Option.some.injEq] at hres
    subst hres
    have hplen : ((List.range' 1 (okRun oracle 1 texts.length)).map (vals oracle)).length =
        okRun oracle 1 texts.length := by simp
    rw [post_thread_calls oracle texts ip fe ro uo ht]
    have hclen := thread_loop_calls_length oracle texts 1
      (upload_step ip fe ro uo).1 none []
    have hkle := okRun_le oracle texts.length 1
    intro i hi
    rw [hplen] at hi
    have hic : i < (thread_loop oracle texts 1 (upload_step ip fe ro uo).1 none []).2.length := by
      rw [hclen]
      omega
    refine ⟨_, List.getElem?_eq_getElem hic, ?_⟩
    obtain ⟨-, -, h3⟩ := thread_loop_call_spec oracle texts 1
      (upload_step ip fe ro uo).1 none [] i _ (List.getElem?_eq_getElem hic)
    rw [h3]
    cases i with
    | zero => simp
    | succ n =>
      rw [if_neg (Nat.succ_ne_zero n)]
      simp only []
      rw [posted_getD oracle _ 0 (by omega),
        posted_getD oracle _ (n + 1 - 1) (by omega)]
      have hroot : rootOf oracle [] 1 = vals oracle 1 := rfl
      rw [hroot]
      simp

/-- Witness for C1: two posts, both successful, checked at `i = 1`. -/
theorem post_thread_reply_chain_witness :
    ∃ c, (callsOf (post_thread oracleAll ["a", "b"] none false false none).2)[1]? = some c ∧
      c.reply_to = (if 1 = 0 then none
        else some { root := [refA, refA].getD 0 default
                    parent := [refA, refA].getD (1 - 1) default }) :=
  post_thread_reply_chain oracleAll ["a", "b"] none false false none
    [refA, refA] (by decide) (by decide) 1 (by decide)

/-- C2 (prefix-stop): when the first `create_post` failure is at
0-based index `k` (the call for index `j` is call `j + 1` of the
oracle), the publication issues exactly `k + 1` record-creation calls
— indices `0` to `k`, nothing beyond — and the successfully created
posts are exactly the results of calls `1` to `k`, in order. -/
theorem post_thread_prefix_stop (oracle : Nat → Option RecordRef)
    (texts : List String) (ip : Option String) (fe ro : Bool) (uo : Option Blob)
    (k : Nat) (hk : k < texts.length) (hfail : oracle (k + 1) = none)
    (hsucc : ∀ j, j < k → (oracle (j + 1)).isSome = true) :
    (callsOf (post_thread oracle texts ip fe ro uo).2).length = k + 1 ∧
    (post_thread oracle texts ip fe ro uo).1 =
      (if k = 0 then none else some ((List.range' 1 k).map (vals oracle))) := by
  have ht : ¬texts = [] := by
    intro he
    subst he
    simp at hk
  have hok : okRun oracle 1 texts.length = k := by
    refine okRun_eq oracle k texts.length 1 hk ?_ ?_
    · rw [Nat.add_comm]
      exact hfail
    · intro j hj
      rw [Nat.add_comm]
      exact hsucc j hj
  constructor
  · rw [post_thread_calls oracle texts ip fe ro uo ht,
      thread_loop_calls_length, hok]
    omega
  · rw [post_thread_result oracle texts ip fe ro uo ht, hok]

/-- Witness for C2: three texts, failure at 0-based index 1. -/
theorem post_thread_prefix_stop_witness :
    (callsOf (post_thread oracleOne ["a", "b", "c"] none false false none).2).length = 1 + 1 ∧
    (post_thread oracleOne ["a", "b", "c"] none false false none).1 =
      (if 1 = 0 then none else some ((List.range' 1 1).map (vals oracleOne))) :=
  post_thread_prefix_stop oracleOne ["a", "b", "c"] none false false none 1
    (by decide) (by decide)
    (by intro j hj; interval_cases j; decide)

/-- C3 (image-only-first): no `create_post` call at 0-based index
`j > 0` of any publication carries an image blob, whatever the texts,
the image path and the upload outcome. -/
theorem post_thread_image_only_first (oracle : Nat → Option RecordRef)
    (texts : List String) (ip : Option String) (fe ro : Bool) (uo : Option Blob)
    (j : Nat) (c : Call) (hj : 1 ≤ j)
    (hc : (callsOf (post_thread oracle texts ip fe ro uo).2)[j]? = some c) :
    c.image_blob = none := by
  by_cases ht : texts = []
  · subst ht
    simp [post_thread, callsOf] at hc
  · rw [post_thread_calls oracle texts ip fe ro uo ht] at hc
    obtain ⟨-, h2, -⟩ := thread_loop_call_spec oracle texts 1
      (upload_step ip fe ro uo).1 none [] j c hc
    rw [h2, if_neg (by omega)]

/-- Witness for C3: an upload succeeds, yet the second call carries no
image. -/
theorem post_thread_image_only_first_witness :
    Call.image_blob
      { text := "b"
        reply_to := some { root := refA, parent := refA }
        image_blob := none } = none :=
  post_thread_image_only_first oracleAll ["a", "b"] (some "x.png") true true
    (some { payload := "B" }) 1
    { text := "b"
      reply_to := some { root := refA, parent := refA }
      image_blob := none }
    (by decide) (by decide)

/-- Counterexample for C4: the empty-thread failure is not a distinct
failure.  The empty-input call returns the same value (`None`) as a
total-failure call on a non-empty thread, so no distinct
`EmptyThreadError` is observable at the caller boundary — the source
has no such error type and returns `None` on both paths (lines 143 and
195). -/
theorem post_thread_empty_not_distinct :
    (post_thread oracleNone ([] : List String) none false false none).1 = none ∧
    (post_thread oracleNone ["a"] none false false none).1 = none := by
  constructor
  · decide
  · decide

/-- C4 (amended — empty-thread rejection): calling `post_thread` with
an empty list of texts fails immediately, returning `None` before any
network call is made, including any image upload (the event trace is
empty whatever the image arguments); the failure is the plain `None`
return, not a distinct error value. -/
theorem post_thread_empty_rejected (oracle : Nat → Option RecordRef)
    (ip : Option String) (fe ro : Bool) (uo : Option Blob) :
    post_thread oracle ([] : List String) ip fe ro uo = (none, []) := by
  simp [post_thread]

/-- The upload step passes no blob through when the upload response is
a failure, whatever the path and I/O outcomes. -/
theorem upload_step_failed (ip : Option String) (fe ro : Bool) :
    (upload_step ip fe ro none).1 = none := by
  cases ip with
  | none => rfl
  | some p =>
    simp only [upload_step, upload_image]
    split
    · rfl
    · split
      · rfl
      · split
        · rfl
        · rfl

/-- C5 (upload failure is non-fatal): with an image supplied and a
failing blob upload (missing file, unreadable file, or failed request
— all yield `None`), the thread still proceeds: the first
`create_post` call is issued and carries no image blob, and when every
`create_post` call succeeds the result is a full-length success. -/
theorem post_thread_upload_nonfatal (oracle : Nat → Option RecordRef)
    (texts : List String) (p : String) (fe ro : Bool) (ht : ¬texts = []) :
    (∃ c, (callsOf (post_thread oracle texts (some p) fe ro none).2)[0]? = some c ∧
      c.image_blob = none) ∧
    ((∀ j, j < texts.length → (oracle (j + 1)).isSome = true) →
      ∃ l, (post_thread oracle texts (some p) fe ro none).1 = some l ∧
        l.length = texts.length) := by
  constructor
  · rw [post_thread_calls oracle texts (some p) fe ro none ht]
    have htpos : 0 < texts.length := List.length_pos.mpr ht
    have h0 : 0 < (thread_loop oracle texts 1
        (upload_step (some p) fe ro none).1 none []).2.length := by
      rw [thread_loop_calls_length]
      omega
    refine ⟨_, List.getElem?_eq_getElem h0, ?_⟩
    obtain ⟨-, h2, -⟩ := thread_loop_call_spec oracle texts 1
      (upload_step (some p) fe ro none).1 none [] 0 _ (List.getElem?_eq_getElem h0)
    rw [h2, if_pos (by omega), upload_step_failed]
  · intro hall
    have htpos : 0 < texts.length := List.length_pos.mpr ht
    rw [post_thread_result oracle texts (some p) fe ro none ht]
    have hok : okRun oracle 1 texts.length = texts.length := by
      refine okRun_full oracle texts.length 1 ?_
      intro j hj
      rw [Nat.add_comm]
      exact hall j hj
    rw [hok, if_neg (by omega)]
    exact ⟨_, rfl, by simp⟩

/-- Witness for C5: one text, upload failed because the file is
missing; the post is still created without an embed. -/
theorem post_thread_upload_nonfatal_witness :
    (∃ c, (callsOf (post_thread oracleAll ["a"] (some "x.png") false false none).2)[0]? = some c ∧
      c.image_blob = none) ∧
    ((∀ j, j < (["a"] : List String).length → (oracleAll (j + 1)).isSome = true) →
      ∃ l, (post_thread oracleAll ["a"] (some "x.png") false false none).1 = some l ∧
        l.length = (["a"] : List String).length) :=
  post_thread_upload_nonfatal oracleAll ["a"] "x.png" false false (by decide)

/-- Counterexample for C6: on total failure `post_thread` does not
return a zero-length result list — it returns `None` (line 195:
`return posted if posted else None`), so the claim that the returned
value is always a sequence whose length is the number of successes
fails at this input. -/
theorem post_thread_total_failure_none :
    (post_thread oracleNone ["a"] none false false none).1 = none ∧
    ∀ l : List RecordRef,
      (post_thread oracleNone ["a"] none false false none).1 = some l → False := by
  have h : (post_thread oracleNone ["a"] none false false none).1 = none := by decide
  refine ⟨h, ?_⟩
  intro l hl
  rw [h] at hl
  exact Option.noConfusion hl

/-- C6 (amended — outcome reporting): for non-empty input,
`post_thread` returns `None` exactly when no post was created, and
otherwise `Some` of the list of successful references, whose length is
the number of successful `create_post` calls (`okRun oracle 1 n`).
The caller therefore distinguishes full success (`Some l` with
`l.length = n`), partial failure (`Some l` with `0 < l.length < n`)
and total failure (`None` rather than a zero-length list). -/
theorem post_thread_result_reports (oracle : Nat → Option RecordRef)
    (texts : List String) (ip : Option String) (fe ro : Bool) (uo : Option Blob)
    (ht : ¬texts = []) :
    (okRun oracle 1 texts.length = 0 →
      (post_thread oracle texts ip fe ro uo).1 = none) ∧
    (0 < okRun oracle 1 texts.length →
      ∃ l, (post_thread oracle texts ip fe ro uo).1 = some l ∧
        l.length = okRun oracle 1 texts.length) := by
  constructor
  · intro h0
    rw [post_thread_result oracle texts ip fe ro uo ht, if_pos h0]
  · intro hpos
    rw [post_thread_result oracle texts ip fe ro uo ht, if_neg (by omega)]
    exact ⟨_, rfl, by simp⟩

/-- Witness for C6 (amended) on a fully successful publication. -/
theorem post_thread_result_reports_witness :
    (okRun oracleAll 1 (["a"] : List String).length = 0 →
      (post_thread oracleAll ["a"] none false false none).1 = none) ∧
    (0 < okRun oracleAll 1 (["a"] : List String).length →
      ∃ l, (post_thread oracleAll ["a"] none false false none).1 = some l ∧
        l.length = okRun oracleAll 1 (["a"] : List String).length) :=
  post_thread_result_reports oracleAll ["a"] none false false none (by decide)

/-- Digit characters are never a plus sign. -/
theorem digitChar_ne_plus (d : Nat) : ¬digitChar d = '+' := by
  unfold digitChar
  split_ifs <;> decide

/-- The rendering worker introduces only digit characters. -/
theorem natDigitsGo_no_plus :
    ∀ (fuel n : Nat) (acc : List Char), '+' ∉ acc → '+' ∉ natDigitsGo fuel n acc := by
  intro fuel
  induction fuel with
  | zero =>
    intro n acc h
    simpa [natDigitsGo] using h
  | succ f ih =>
    intro n acc h
    simp only [natDigitsGo]
    split
    · intro hm
      rcases List.mem_cons.mp hm with he | hi
      · exact digitChar_ne_plus n he.symm
      · exact h hi
    · refine ih _ _ ?_
      intro hm
      rcases List.mem_cons.mp hm with he | hi
      · exact digitChar_ne_plus _ he.symm
      · exact h hi

/-- Decimal renderings contain no plus sign. -/
theorem natDigits_no_plus (n : Nat) : '+' ∉ natDigits n :=
  natDigitsGo_no_plus (n + 1) n [] (by simp)

/-- Padded renderings contain no plus sign. -/
theorem padNum_no_plus (w n : Nat) : '+' ∉ padNum w n := by
  unfold padNum
  intro h
  rcases List.mem_append.mp h with h1 | h2
  · exact absurd (List.eq_of_mem_replicate h1) (by decide)
  · exact natDigits_no_plus n h2

/-- The part of `isoformat()` before the offset contains no plus
sign. -/
theorem isoPre_no_plus (dt : PyDateTime) : '+' ∉ isoPre dt := by
  unfold isoPre
  intro h
  simp only [List.mem_append] at h
  rcases h with ((((((((((h | h) | h) | h) | h) | h) | h) | h) | h) | h) | h) | h
  · exact padNum_no_plus 4 dt.year h
  · simp at h
  · exact padNum_no_plus 2 dt.month h
  · simp at h
  · exact padNum_no_plus 2 dt.day h
  · simp at h
  · exact padNum_no_plus 2 dt.hour h
  · simp at h
  · exact padNum_no_plus 2 dt.minute h
  · simp at h
  · exact padNum_no_plus 2 dt.second h
  · split at h
    · simp at h
    · rcases List.mem_cons.mp h with he | hi
      · exact absurd he (by decide)
      · exact padNum_no_plus 6 dt.microsecond hi

/-- The replace worker maps a string of shape `pre ++ "+00:00"` with a
plus-free `pre` to `pre ++ rep`. -/
theorem replaceGo_plus_suffix (rep : List Char) :
    ∀ (pre : List Char) (fuel : Nat), pre.length < fuel → '+' ∉ pre →
      replaceGo "+00:00".data rep fuel (pre ++ "+00:00".data) = pre ++ rep := by
  have hpat : ("+00:00".data : List Char) = '+' :: "00:00".data := by decide
  intro pre
  induction pre with
  | nil =>
    intro fuel hf _
    cases fuel with
    | zero => omega
    | succ f =>
      rw [List.nil_append, List.nil_append]
      rw [hpat]
      simp only [replaceGo]
      rw [if_pos (by rw [← hpat]; exact ⟨by decide, by decide⟩)]
      have hdrop : (('+' :: "00:00".data).drop ("+00:00".data : List Char).length) = [] := by
        decide
      rw [hdrop]
      cases f with
      | zero => simp [replaceGo]
      | succ g => simp [replaceGo]
  | cons c pre' ih =>
    intro fuel hf hplus
    have hc : ¬c = '+' := by
      intro he
      exact hplus (by rw [he]; exact List.mem_cons_self '+' pre')
    cases fuel with
    | zero => simp at hf
    | succ f =>
      rw [List.cons_append]
      simp only [replaceGo]
      rw [if_neg ?_]
      · rw [ih f (by simp at hf; omega)
          (fun hm => hplus (List.mem_cons_of_mem c hm))]
        rw [List.cons_append]
      · intro hcond
        have h1 := hcond.1
        simp only [List.isPrefixOf, Bool.and_eq_true, beq_iff_eq] at h1
        exact hc h1.1.symm

/-- The `createdAt` string is the ISO serialization with the `+00:00`
offset replaced by the `Z` suffix. -/
theorem createdAtStr_eq (dt : PyDateTime) :
    createdAtStr dt = isoPre dt ++ "Z".data := by
  unfold createdAtStr pyIsoformatUTC replaceList
  refine replaceGo_plus_suffix "Z".data (isoPre dt) _ (by simp; omega)
    (isoPre_no_plus dt)

/-- A string without a plus sign has no `+00:00` substring. -/
theorem containsSub_plus_false (l : List Char) (h : '+' ∉ l) :
    containsSub "+00:00".data l = false := by
  induction l with
  | nil => decide
  | cons c rest ih =>
    have hc : ¬c = '+' := by
      intro he
      exact h (by rw [he]; exact List.mem_cons_self '+' rest)
    simp only [containsSub]
    rw [ih (fun hm => h (List.mem_cons_of_mem c hm)), Bool.or_false]
    simp only [List.isPrefixOf]
    rw [show ('+' == c) = false from beq_eq_false_iff_ne.mpr (fun he => hc he.symm)]
    exact Bool.false_and _

/-- C8 (timestamp format and verbatim reply): every record built by
`create_post` carries a `createdAt` equal to the ISO-8601 serialization
of the UTC time with the offset replaced by the `Z` suffix — so it
ends in `Z` and never contains `+00:00` — and the supplied reply link
is attached verbatim, without re-derivation. -/
theorem create_post_record_spec (t : String) (dt : PyDateTime)
    (rl : Option ReplyRef) (b : Option Blob) :
    (buildRecord t dt rl b).createdAt = isoPre dt ++ "Z".data ∧
    (buildRecord t dt rl b).createdAt.getLast? = some 'Z' ∧
    containsSub "+00:00".data (buildRecord t dt rl b).createdAt = false ∧
    (buildRecord t dt rl b).reply = rl := by
  have hca : (buildRecord t dt rl b).createdAt = isoPre dt ++ "Z".data := by
    simp only [buildRecord]
    exact createdAtStr_eq dt
  refine ⟨hca, ?_, ?_, ?_⟩
  · rw [hca, show ("Z".data : List Char) = ['Z'] from by decide,
      List.getLast?_concat]
  · rw [hca]
    refine containsSub_plus_false _ ?_
    intro hm
    rcases List.mem_append.mp hm with h | h
    · exact isoPre_no_plus dt h
    · revert h
      decide
  · simp only [buildRecord]

/-- The `splitext` extension is empty or starts with a dot. -/
theorem splitextExt_shape (p : List Char) :
    splitextExt p = [] ∨ ∃ r, splitextExt p = '.' :: r := by
  unfold splitextExt extFromBase
  split
  · exact Or.inl rfl
  · split
    · exact Or.inl rfl
    · exact Or.inr ⟨_, rfl⟩

/-- C7 (MIME derivation): for every image path the chosen Content-Type
is exactly the claim's fixed table applied to the case-lowered file
extension (the `splitext` extension without its dot), with every
extension outside the table — including the empty one — yielding
`image/jpeg`. -/
theorem mimetype_refines_claim (p : List Char) :
    mimetype_of p = claimMime ((extNoDot p).map pyLower) := by
  rcases splitextExt_shape p with h | ⟨r, h⟩
  · unfold mimetype_of extNoDot
    rw [h]
    decide
  · unfold mimetype_of extNoDot
    rw [h]
    simp only [List.map_cons, if_pos rfl]
    rw [show pyLower '.' = '.' from by decide]
    unfold claimMime
    simp only [show (".jpg".data : List Char) = '.' :: "jpg".data from by decide,
      show (".jpeg".data : List Char) = '.' :: "jpeg".data from by decide,
      show (".png".data : List Char) = '.' :: "png".data from by decide,
      show (".gif".data : List Char) = '.' :: "gif".data from by decide,
      show (".webp".data : List Char) = '.' :: "webp".data from by decide,
      List.cons.injEq, true_and, if_true]
